import Mathlib

/-!
Verification of the whisper-lrc input-resolution and batch-orchestration
pipeline.  Go source files are shallowly embedded: pure string functions
become Lean functions on `String`, filesystem / network / subprocess
effects become explicit environment records describing the outcome of
each external call, and every Go multi-value return `(path, cleanup, err)`
becomes a `GoResolve` record so that the error-path shape of each return
statement is kept faithfully.
-/

namespace WhisperLrc

/-! ### Go string primitives (ASCII model) -/

/-- Models Go `strings.ToLower` on one character.  The repository only
lowercases ASCII extensions and URLs, so the ASCII table suffices. -/
def asciiLower (c : Char) : Char :=
  if 'A' ≤ c ∧ c ≤ 'Z' then Char.ofNat (c.toNat + 32) else c

/-- Models Go `strings.ToLower` for ASCII strings. -/
def strToLower (s : String) : String := ⟨s.data.map asciiLower⟩

/-- Models Go `strings.Contains`. -/
def strContains (s sub : String) : Bool :=
  (List.range (s.data.length + 1)).any (fun i => sub.data.isPrefixOf (s.data.drop i))

/-- Models Go `strings.HasSuffix`. -/
def strEndsWith (s suf : String) : Bool := suf.data.isSuffixOf s.data

/-- Models Go `strings.HasPrefix`. -/
def strStartsWith (s p : String) : Bool := p.data.isPrefixOf s.data

/-- Models Go `strings.TrimSuffix`. -/
def trimSuffix (s suf : String) : String :=
  if strEndsWith s suf then ⟨s.data.take (s.data.length - suf.data.length)⟩ else s

/-- Helper for `pathExt`: scans the reversed character list of a path; the
accumulator holds the characters already scanned (those after the current
position) in original order. -/
def extScan (acc : List Char) : List Char → List Char
  | [] => []
  | c :: rest =>
    if c = '/' then []
    else if c = '.' then '.' :: acc
    else extScan (c :: acc) rest

/-- Models Go `filepath.Ext` on a Unix path: the suffix beginning at the
final dot in the final path element, or `""` when there is none. -/
def pathExt (p : String) : String := ⟨extScan [] p.data.reverse⟩

/-- Models Go `filepath.Base` on a Unix path. -/
def pathBase (p : String) : String :=
  if p = "" then "."
  else
    let r := p.data.reverse.dropWhile (fun c => c = '/')
    if r = [] then "/"
    else ⟨(r.takeWhile (fun c => c ≠ '/')).reverse⟩

/-- Models Go `filepath.Dir` on the already-clean Unix paths this program
passes it (no `.`/`..` components and no doubled separators): everything
before the final path element, `"."` when the path has no separator. -/
def pathDir (p : String) : String :=
  let r := p.data.reverse.dropWhile (fun c => c ≠ '/')
  let r2 := r.dropWhile (fun c => c = '/')
  if r2 = [] then (if r = [] then "." else "/")
  else ⟨r2.reverse⟩

/-- Models Go `filepath.Join(dir, file)` for the inputs this program
produces (a non-empty dir without trailing slash and a simple file name):
`Join` cleans the joined path, which here only matters for `dir = "."`. -/
def goJoin (dir file : String) : String :=
  if dir = "." then file else dir ++ "/" ++ file

/-- Models `fmt.Sprintf` with a `%0wd` verb for a non-negative value. -/
def padNum (w n : Nat) : String :=
  let s := toString n
  if s.data.length < w then (⟨List.replicate (w - s.data.length) '0'⟩ : String) ++ s else s

/-! ### Data model of the input handler (internal/input, src/unnamed/part_002) -/

/-- The `supportedExtensions` map of the input handler, as the list of
extensions it marks `true`. -/
def supportedExtensions : List String :=
  [".mp3", ".wav", ".m4a", ".flac", ".ogg", ".webm", ".mp4"]

/-- Membership in the `supportedExtensions` map. -/
def isSupportedExt (e : String) : Bool := decide (e ∈ supportedExtensions)

/-- A cleanup closure returned by the input handler: either `os.Remove`
of a temporary file or `os.RemoveAll` of a temporary directory. -/
inductive Cleanup where
  | removeFile (path : String)
  | removeDirAll (dir : String)
deriving DecidableEq, Repr

/-- The distinct error returns of the input handler and pipeline, one
constructor per `fmt.Errorf` site, carrying the data the message carries. -/
inductive ResolveErr where
  | notFound (path : String)
  | accessError (path : String)
  | invalidInput (path : String)
  | unsupportedFormat (ext : String)
  | tooManyRedirects
  | downloadFailed (status : Nat)
  | unexpectedContent
  | tempFileError
  | saveError
  | toolNotFound
  | tempDirError
  | extractionFailed (combinedOutput : String)
  | extractionNoFile
deriving DecidableEq, Repr

/-- The outcome of `os.Stat` on a path, as the input handler
distinguishes it: `os.IsNotExist` error, any other error, a directory,
or a regular file. -/
inductive StatResult where
  | notExist
  | statError
  | dir
  | file
deriving DecidableEq, Repr

/-- The Go return triple `(string, func(), error)` used throughout the
input handler. -/
structure GoResolve where
  path : String
  cleanup : Option Cleanup
  err : Option ResolveErr
deriving DecidableEq, Repr

/-- Embedding of `Handler.resolveLocalFile`: stat the path, reject
missing paths, stat errors, directories and unsupported extensions, and
otherwise return the path unchanged with a nil cleanup.  The filesystem
is the function `fs`. -/
def resolveLocalFile (fs : String → StatResult) (path : String) : GoResolve :=
  match fs path with
  | .notExist => ⟨"", none, some (.notFound path)⟩
  | .statError => ⟨"", none, some (.accessError path)⟩
  | .dir => ⟨"", none, some (.invalidInput path)⟩
  | .file =>
    let ext := strToLower (pathExt path)
    if isSupportedExt ext then ⟨path, none, none⟩
    else ⟨"", none, some (.unsupportedFormat ext)⟩

/-- C3: for every filesystem path input, resolution fails with NotFound
when the path does not exist, with AccessError when it cannot be
inspected, with InvalidInput when it is a directory, with
UnsupportedFormat when its lowercased extension is outside
{.mp3, .wav, .m4a, .flac, .ogg, .webm, .mp4}; and an existing regular
file with a supported extension resolves to the unchanged path with a
nil cleanup. -/
theorem c3_local_file_resolution (fs : String → StatResult) (path : String) :
    (fs path = .notExist → resolveLocalFile fs path = ⟨"", none, some (.notFound path)⟩) ∧
    (fs path = .statError → resolveLocalFile fs path = ⟨"", none, some (.accessError path)⟩) ∧
    (fs path = .dir → resolveLocalFile fs path = ⟨"", none, some (.invalidInput path)⟩) ∧
    (fs path = .file →
      strToLower (pathExt path) ∉ [".mp3", ".wav", ".m4a", ".flac", ".ogg", ".webm", ".mp4"] →
      resolveLocalFile fs path =
        ⟨"", none, some (.unsupportedFormat (strToLower (pathExt path)))⟩) ∧
    (fs path = .file →
      strToLower (pathExt path) ∈ [".mp3", ".wav", ".m4a", ".flac", ".ogg", ".webm", ".mp4"] →
      resolveLocalFile fs path = ⟨path, none, none⟩) := by
  refine ⟨fun h => ?_, fun h => ?_, fun h => ?_, fun h h2 => ?_, fun h h2 => ?_⟩
  · simp [resolveLocalFile, h]
  · simp [resolveLocalFile, h]
  · simp [resolveLocalFile, h]
  · simp only [List.mem_cons, List.not_mem_nil, or_false] at h2
    push_neg at h2
    simp [resolveLocalFile, h, isSupportedExt, supportedExtensions, h2]
  · simp only [List.mem_cons, List.not_mem_nil, or_false] at h2
    simp [resolveLocalFile, h, isSupportedExt, supportedExtensions]
    intro hne
    rcases h2 with h2 | h2 | h2 | h2 | h2 | h2 | h2 <;> simp [h2] at hne ⊢

/-- Witness for C3 at concrete inputs: an existing file with an
uppercase supported extension resolves to itself with nil cleanup, and a
missing file yields NotFound. -/
theorem c3_local_file_resolution_witness :
    resolveLocalFile (fun p => if p = "Song.MP3" then .file else .notExist) "Song.MP3" =
      ⟨"Song.MP3", none, none⟩ ∧
    resolveLocalFile (fun p => if p = "Song.MP3" then .file else .notExist) "gone.mp3" =
      ⟨"", none, some (.notFound "gone.mp3")⟩ := by
  constructor
  · exact (c3_local_file_resolution (fun p => if p = "Song.MP3" then .file else .notExist)
      "Song.MP3").2.2.2.2 (by decide) (by decide)
  · exact (c3_local_file_resolution (fun p => if p = "Song.MP3" then .file else .notExist)
      "gone.mp3").1 (by decide)

/-! ### Direct download (Handler.downloadDirect, getAudioExtension) -/

/-- The final HTTP response as `downloadDirect` observes it: status code,
the raw `Content-Type` header, and the final post-redirect request URL
(`resp.Request.URL.String()` and `resp.Request.URL.Path`). -/
structure HTTPResponse where
  status : Nat
  contentType : String
  finalURL : String
  finalPath : String
deriving DecidableEq, Repr

/-- The `contentTypeMap` lookup table of `getAudioExtension`, in source
order; `application/octet-stream` maps to `""` to force the URL
fallback. -/
def contentTypeMap : List (String × String) :=
  [("audio/mpeg", ".mp3"), ("audio/mp3", ".mp3"),
   ("audio/wav", ".wav"), ("audio/x-wav", ".wav"), ("audio/wave", ".wav"),
   ("audio/mp4", ".m4a"), ("audio/x-m4a", ".m4a"), ("audio/m4a", ".m4a"),
   ("audio/aac", ".m4a"),
   ("audio/flac", ".flac"), ("audio/x-flac", ".flac"),
   ("audio/ogg", ".ogg"), ("audio/webm", ".webm"),
   ("video/mp4", ".mp4"), ("video/webm", ".webm"),
   ("application/ogg", ".ogg"),
   ("application/octet-stream", "")]

/-- The content-type parameter stripping of `getAudioExtension`: cut at
the first `;` and trim surrounding whitespace. -/
def stripParams (ct : String) : String :=
  match ct.data.findIdx? (fun c => c = ';') with
  | some i => (⟨ct.data.take i⟩ : String).trim
  | none => ct

/-- One iteration of the URL-fallback loop of `getAudioExtension`: the
extension matches when the lowercased final URL path ends with it, or
the lowercased final URL contains it immediately followed by `?` or
`&`. -/
def extMatches (resp : HTTPResponse) (e : String) : Bool :=
  strEndsWith (strToLower resp.finalPath) e ||
  strContains (strToLower resp.finalURL) (e ++ "?") ||
  strContains (strToLower resp.finalURL) (e ++ "&")

/-- The URL-fallback of `getAudioExtension`.  The Go source iterates the
`supportedExtensions` map, whose order is unspecified; here the fixed
source-listing order is used, and the theorems about the fallback only
assume a unique matching extension, where the order is irrelevant. -/
def urlExtFallback (resp : HTTPResponse) : String :=
  match supportedExtensions.find? (fun e => extMatches resp e) with
  | some e => e
  | none => ".mp3"

/-- Embedding of `getAudioExtension`: exact content-type table lookup
first (ignored when it yields `""`), then the URL fallback, then the
`.mp3` default inside the fallback. -/
def getAudioExtension (resp : HTTPResponse) : String :=
  let ct := stripParams resp.contentType
  match contentTypeMap.lookup ct with
  | some e => if e = "" then urlExtFallback resp else e
  | none => urlExtFallback resp

/-- The environment of one `downloadDirect` call: `redirects` is the
number of redirect responses the server chain produces (Go's
`CheckRedirect` rejects with "too many redirects" when `len(via) >= 10`,
i.e. when a tenth redirect would be followed), `resp` the final
response, `tmpBase` the name `os.CreateTemp` allocates before the
extension, and the two flags whether temp creation and `io.Copy`
succeed. -/
structure DirectEnv where
  redirects : Nat
  resp : HTTPResponse
  tmpBase : String
  tmpCreateOk : Bool
  copyOk : Bool
deriving DecidableEq, Repr

/-- The observable result of `downloadDirect`: the Go return triple plus
whether a temporary file was created and whether it was removed again
before returning. -/
structure DirectResult where
  ret : GoResolve
  tempCreated : Bool
  tempRemoved : Bool
deriving DecidableEq, Repr

/-- Embedding of `Handler.downloadDirect`, mirroring its statement
order: redirect-capped GET, status check, HTML sniff, extension choice,
temp-file creation, body copy (removing the partial file on copy
failure), and the success return carrying the remove-file cleanup. -/
def downloadDirect (env : DirectEnv) : DirectResult :=
  if 10 ≤ env.redirects then ⟨⟨"", none, some .tooManyRedirects⟩, false, false⟩
  else if env.resp.status ≠ 200 then
    ⟨⟨"", none, some (.downloadFailed env.resp.status)⟩, false, false⟩
  else if strStartsWith env.resp.contentType "text/html" then
    ⟨⟨"", none, some .unexpectedContent⟩, false, false⟩
  else
    let ext := getAudioExtension env.resp
    if env.tmpCreateOk then
      let tmpPath := env.tmpBase ++ ext
      if env.copyOk then ⟨⟨tmpPath, some (.removeFile tmpPath), none⟩, true, false⟩
      else ⟨⟨"", none, some .saveError⟩, true, true⟩
    else ⟨⟨"", none, some .tempFileError⟩, false, false⟩

/-- C4: counting hops as HTTP requests in the chain (initial request
plus one per redirect, so hops = redirects + 1): chains of 11 or more
hops fail with TooManyRedirects; chains of exactly 10 hops succeed when
the final response is a non-HTML 200 (and the local temp I/O works); a
non-200 final response within the cap fails with DownloadFailed carrying
the status; an HTML final response fails with UnexpectedContent with no
temporary file created. -/
theorem c4_redirect_cap (env : DirectEnv) :
    (11 ≤ env.redirects + 1 →
      (downloadDirect env).ret = ⟨"", none, some .tooManyRedirects⟩) ∧
    (env.redirects + 1 = 10 → env.resp.status = 200 →
      strStartsWith env.resp.contentType "text/html" = false →
      env.tmpCreateOk = true → env.copyOk = true →
      (downloadDirect env).ret.err = none ∧ (downloadDirect env).ret.cleanup.isSome = true) ∧
    (env.redirects + 1 ≤ 10 → env.resp.status ≠ 200 →
      (downloadDirect env).ret = ⟨"", none, some (.downloadFailed env.resp.status)⟩) ∧
    (env.redirects + 1 ≤ 10 → env.resp.status = 200 →
      strStartsWith env.resp.contentType "text/html" = true →
      (downloadDirect env).ret = ⟨"", none, some .unexpectedContent⟩ ∧
        (downloadDirect env).tempCreated = false) := by
  refine ⟨fun h => ?_, fun h h2 h3 h4 h5 => ?_, fun h h2 => ?_, fun h h2 h3 => ?_⟩
  · have : 10 ≤ env.redirects := by omega
    simp [downloadDirect, this]
  · have : ¬ 10 ≤ env.redirects := by omega
    simp [downloadDirect, this, h2, h3, h4, h5]
  · have : ¬ 10 ≤ env.redirects := by omega
    simp [downloadDirect, this, h2]
  · have : ¬ 10 ≤ env.redirects := by omega
    simp [downloadDirect, this, h2, h3]

/-- Witness for C4: a chain of 11 hops (10 redirects) fails with
TooManyRedirects, and a chain of exactly 10 hops (9 redirects) with a
clean 200 `audio/mpeg` response succeeds with a pending cleanup. -/
theorem c4_redirect_cap_witness :
    (downloadDirect ⟨10, ⟨200, "audio/mpeg", "http://h/a.mp3", "/a.mp3"⟩, "/tmp/t", true, true⟩).ret =
      ⟨"", none, some .tooManyRedirects⟩ ∧
    (downloadDirect ⟨9, ⟨200, "audio/mpeg", "http://h/a.mp3", "/a.mp3"⟩, "/tmp/t", true, true⟩).ret.err =
      none := by
  constructor
  · exact (c4_redirect_cap
      ⟨10, ⟨200, "audio/mpeg", "http://h/a.mp3", "/a.mp3"⟩, "/tmp/t", true, true⟩).1 (by decide)
  · exact ((c4_redirect_cap
      ⟨9, ⟨200, "audio/mpeg", "http://h/a.mp3", "/a.mp3"⟩, "/tmp/t", true, true⟩).2.1
      rfl rfl (by decide) rfl rfl).1

/-- `List.find?` returns the unique element satisfying the predicate. -/
theorem find_of_unique_match {α : Type} (p : α → Bool) (a : α) :
    ∀ l : List α, a ∈ l → p a = true → (∀ b ∈ l, p b = true → b = a) →
      l.find? p = some a := by
  intro l
  induction l with
  | nil => intro h; simp at h
  | cons x xs ih =>
    intro hmem hpa huniq
    by_cases hx : p x = true
    · have hxa : x = a := huniq x (by simp) hx
      subst hxa
      simp [List.find?, hx]
    · have hne : x ≠ a := fun he => hx (he ▸ hpa)
      have hmem' : a ∈ xs := by
        rcases List.mem_cons.mp hmem with h | h
        · exact absurd h.symm hne
        · exact h
      have hx' : p x = false := by simpa using hx
      simp only [List.find?, hx']
      exact ih hmem' hpa (fun b hb hpb => huniq b (List.mem_cons_of_mem _ hb) hpb)

/-- C5: the temp-file extension is chosen by, in order: exact
content-type lookup; for an octet-stream or absent content type, a known
extension suffix in the final post-redirect URL path or query string
(when it is unambiguous — the Go map iteration order is unspecified);
and the `.mp3` default when no extension matches. -/
theorem c5_extension_priority (resp : HTTPResponse) :
    (∀ e, contentTypeMap.lookup (stripParams resp.contentType) = some e → e ≠ "" →
      getAudioExtension resp = e) ∧
    (stripParams resp.contentType = "application/octet-stream" ∨
        stripParams resp.contentType = "" →
      ∀ e ∈ supportedExtensions, extMatches resp e = true →
        (∀ f ∈ supportedExtensions, extMatches resp f = true → f = e) →
        getAudioExtension resp = e) ∧
    (stripParams resp.contentType = "application/octet-stream" ∨
        stripParams resp.contentType = "" →
      (∀ e ∈ supportedExtensions, extMatches resp e = false) →
      getAudioExtension resp = ".mp3") := by
  refine ⟨fun e hl hne => ?_, fun hct e hmem hm huniq => ?_, fun hct hnone => ?_⟩
  · simp [getAudioExtension, hl, hne]
  · have hfb : urlExtFallback resp = e := by
      simp [urlExtFallback, find_of_unique_match (fun f => extMatches resp f) e
        supportedExtensions hmem hm huniq]
    have h1 : contentTypeMap.lookup "application/octet-stream" = some "" := by decide
    have h2 : contentTypeMap.lookup "" = none := by decide
    rcases hct with hct | hct <;> simp [getAudioExtension, hct, hfb, h1, h2]
  · have hfb : urlExtFallback resp = ".mp3" := by
      have : supportedExtensions.find? (fun f => extMatches resp f) = none := by
        rw [List.find?_eq_none]
        intro f hf
        simp [hnone f hf]
      simp [urlExtFallback, this]
    have h1 : contentTypeMap.lookup "application/octet-stream" = some "" := by decide
    have h2 : contentTypeMap.lookup "" = none := by decide
    rcases hct with hct | hct <;> simp [getAudioExtension, hct, hfb, h1, h2]

/-- Witness for C5: `Content-Type: audio/mpeg` yields `.mp3`;
`application/octet-stream` with a final URL ending in `.flac?token=x`
yields `.flac`; octet-stream with no extension hint yields `.mp3`. -/
theorem c5_extension_priority_witness :
    getAudioExtension ⟨200, "audio/mpeg", "http://h/a", "/a"⟩ = ".mp3" ∧
    getAudioExtension
      ⟨200, "application/octet-stream", "http://h/file.flac?token=x", "/file.flac"⟩ = ".flac" ∧
    getAudioExtension ⟨200, "application/octet-stream", "http://h/a", "/a"⟩ = ".mp3" := by
  refine ⟨?_, ?_, ?_⟩
  · exact (c5_extension_priority ⟨200, "audio/mpeg", "http://h/a", "/a"⟩).1 ".mp3"
      (by decide) (by decide)
  · exact (c5_extension_priority
      ⟨200, "application/octet-stream", "http://h/file.flac?token=x", "/file.flac"⟩).2.1
      (Or.inl (by decide)) ".flac" (by decide) (by decide) (by decide)
  · exact (c5_extension_priority ⟨200, "application/octet-stream", "http://h/a", "/a"⟩).2.2
      (Or.inl (by decide)) (by decide)

/-! ### Video extraction (Handler.downloadWithYtDlp) -/

/-- The environment of one `downloadWithYtDlp` call: whether
`exec.LookPath("yt-dlp")` finds the tool, the name `os.MkdirTemp`
allocates and whether it succeeds, whether the subprocess exits zero,
its captured combined output, and the outcome of
`filepath.Glob(tmpDir/"audio.*")`. -/
structure YtEnv where
  toolFound : Bool
  tmpDir : String
  mkdirOk : Bool
  exitOk : Bool
  combinedOutput : String
  globOk : Bool
  globFiles : List String
deriving DecidableEq, Repr

/-- The observable result of `downloadWithYtDlp`: the Go return triple
plus whether the temporary directory was created and whether it was
removed again before returning. -/
structure YtResult where
  ret : GoResolve
  dirCreated : Bool
  dirRemoved : Bool
deriving DecidableEq, Repr

/-- Embedding of `Handler.downloadWithYtDlp`, mirroring its statement
order: tool lookup before any temporary resource, temp-directory
creation, subprocess run (removing the directory on non-zero exit),
glob for `audio.*` (removing the directory when it errors or matches
nothing), and the success return of the first match with the
remove-directory cleanup pending. -/
def downloadWithYtDlp (env : YtEnv) : YtResult :=
  if env.toolFound then
    if env.mkdirOk then
      if env.exitOk then
        if env.globOk then
          match env.globFiles with
          | [] => ⟨⟨"", none, some .extractionNoFile⟩, true, true⟩
          | f :: _ => ⟨⟨f, some (.removeDirAll env.tmpDir), none⟩, true, false⟩
        else ⟨⟨"", none, some .extractionNoFile⟩, true, true⟩
      else ⟨⟨"", none, some (.extractionFailed env.combinedOutput)⟩, true, true⟩
    else ⟨⟨"", none, some .tempDirError⟩, false, false⟩
  else ⟨⟨"", none, some .toolNotFound⟩, false, false⟩

/-- C6: a missing yt-dlp executable fails with ToolNotFound before any
temporary directory is created; a non-zero tool exit removes the
directory and fails with ExtractionFailed carrying the captured combined
output; a successful exit whose glob finds zero files removes the
directory and fails; otherwise the first matched file is returned with
the directory-removal cleanup still pending. -/
theorem c6_ytdlp_lifecycle (env : YtEnv) :
    (env.toolFound = false →
      (downloadWithYtDlp env).ret = ⟨"", none, some .toolNotFound⟩ ∧
        (downloadWithYtDlp env).dirCreated = false) ∧
    (env.toolFound = true → env.mkdirOk = true → env.exitOk = false →
      (downloadWithYtDlp env).ret = ⟨"", none, some (.extractionFailed env.combinedOutput)⟩ ∧
        (downloadWithYtDlp env).dirRemoved = true) ∧
    (env.toolFound = true → env.mkdirOk = true → env.exitOk = true → env.globOk = true →
      env.globFiles = [] →
      (downloadWithYtDlp env).ret = ⟨"", none, some .extractionNoFile⟩ ∧
        (downloadWithYtDlp env).dirRemoved = true) ∧
    (∀ f rest, env.toolFound = true → env.mkdirOk = true → env.exitOk = true →
      env.globOk = true → env.globFiles = f :: rest →
      (downloadWithYtDlp env).ret = ⟨f, some (.removeDirAll env.tmpDir), none⟩ ∧
        (downloadWithYtDlp env).dirRemoved = false) := by
  refine ⟨fun h => ?_, fun h h2 h3 => ?_, fun h h2 h3 h4 h5 => ?_,
    fun f rest h h2 h3 h4 h5 => ?_⟩
  all_goals simp_all [downloadWithYtDlp]

/-- Witness for C6: with yt-dlp present, a clean run producing one file
returns that file with the directory cleanup pending; with the tool
absent, resolution fails with ToolNotFound and no directory is
created. -/
theorem c6_ytdlp_lifecycle_witness :
    (downloadWithYtDlp ⟨true, "/tmp/d", true, true, "", true, ["/tmp/d/audio.mp3"]⟩).ret =
      ⟨"/tmp/d/audio.mp3", some (.removeDirAll "/tmp/d"), none⟩ ∧
    (downloadWithYtDlp ⟨false, "", true, true, "", true, []⟩).ret =
      ⟨"", none, some .toolNotFound⟩ ∧
    (downloadWithYtDlp ⟨false, "", true, true, "", true, []⟩).dirCreated = false := by
  refine ⟨?_, ?_, ?_⟩
  · exact ((c6_ytdlp_lifecycle ⟨true, "/tmp/d", true, true, "", true, ["/tmp/d/audio.mp3"]⟩).2.2.2
      "/tmp/d/audio.mp3" [] rfl rfl rfl rfl rfl).1
  · exact ((c6_ytdlp_lifecycle ⟨false, "", true, true, "", true, []⟩).1 rfl).1
  · exact ((c6_ytdlp_lifecycle ⟨false, "", true, true, "", true, []⟩).1 rfl).2

/-! ### The resolution facade (Handler.Resolve) -/

/-- The environment one `Resolve` call runs in: the filesystem for local
paths, and the network/subprocess behavior for the two URL strategies. -/
structure ResolveEnv where
  fs : String → StatResult
  direct : DirectEnv
  yt : YtEnv

/-- Models the URL check of `Handler.Resolve`
(`strings.HasPrefix(input, "http://") || strings.HasPrefix(input,
"https://")`). -/
def isURL (s : String) : Bool :=
  strStartsWith s "http://" || strStartsWith s "https://"

/-- The `ytPatterns` list of `isYouTubeURL`. -/
def ytPatterns : List String :=
  ["youtube.com/watch", "youtu.be/", "youtube.com/shorts/",
   "youtube.com/live/", "music.youtube.com/watch"]

/-- Embedding of `isYouTubeURL`: the URL contains one of the fixed
hosting-site patterns. -/
def isYouTubeURL (u : String) : Bool := ytPatterns.any (fun p => strContains u p)

/-- The observable result of `Resolve`: the Go return triple plus
whether a temporary artifact (file or directory) was created and whether
it was removed again before returning. -/
structure ResolveResult where
  ret : GoResolve
  tempCreated : Bool
  tempRemoved : Bool
deriving DecidableEq, Repr

/-- Embedding of `Handler.Resolve`: URL-like inputs go to
`downloadWithYtDlp` when yt-dlp mode is on and the URL matches a hosting
pattern, otherwise to `downloadDirect`; everything else is a local
file. -/
def Resolve (useYtDlp : Bool) (env : ResolveEnv) (input : String) : ResolveResult :=
  if isURL input then
    if useYtDlp && isYouTubeURL input then
      let r := downloadWithYtDlp env.yt
      ⟨r.ret, r.dirCreated, r.dirRemoved⟩
    else
      let r := downloadDirect env.direct
      ⟨r.ret, r.tempCreated, r.tempRemoved⟩
  else
    ⟨resolveLocalFile env.fs input, false, false⟩

/-- Every error return of `resolveLocalFile` carries an empty path and a
nil cleanup; its success return also has a nil cleanup. -/
theorem resolveLocalFile_err_shape (fs : String → StatResult) (path : String) :
    ((resolveLocalFile fs path).err.isSome = true →
      (resolveLocalFile fs path).path = "" ∧ (resolveLocalFile fs path).cleanup = none) ∧
    (resolveLocalFile fs path).cleanup = none := by
  unfold resolveLocalFile
  rcases fs path with _ | _ | _ | _
  · simp
  · simp
  · simp
  · simp only []
    split <;> simp

/-- Every error return of `downloadDirect` carries an empty path and a
nil cleanup, and any temp file it created has been removed. -/
theorem downloadDirect_err_shape (env : DirectEnv) :
    (downloadDirect env).ret.err.isSome = true →
    (downloadDirect env).ret.path = "" ∧ (downloadDirect env).ret.cleanup = none ∧
      ((downloadDirect env).tempCreated = true → (downloadDirect env).tempRemoved = true) := by
  unfold downloadDirect
  rcases env with ⟨r, resp, b, tc, co⟩
  by_cases h1 : 10 ≤ r
  · simp [h1]
  · rw [if_neg h1]
    by_cases h2 : resp.status = 200 <;>
      rcases h3 : strStartsWith resp.contentType "text/html" <;>
      rcases tc <;> rcases co <;> simp_all

/-- Every error return of `downloadWithYtDlp` carries an empty path and
a nil cleanup, and any temp directory it created has been removed. -/
theorem downloadWithYtDlp_err_shape (env : YtEnv) :
    (downloadWithYtDlp env).ret.err.isSome = true →
    (downloadWithYtDlp env).ret.path = "" ∧ (downloadWithYtDlp env).ret.cleanup = none ∧
      ((downloadWithYtDlp env).dirCreated = true → (downloadWithYtDlp env).dirRemoved = true) := by
  unfold downloadWithYtDlp
  rcases env with ⟨tf, d, mk, ex, out, go, gf⟩
  rcases tf <;> rcases mk <;> rcases ex <;> rcases go <;> rcases gf <;> simp_all

/-- C9: whenever `Resolve` returns an error it returns an empty path and
a nil cleanup, and any temporary artifact created during the failed
resolution has already been removed before the error returns. -/
theorem c9_no_resource_on_error (useYtDlp : Bool) (env : ResolveEnv) (input : String) :
    (Resolve useYtDlp env input).ret.err.isSome = true →
    (Resolve useYtDlp env input).ret.path = "" ∧
      (Resolve useYtDlp env input).ret.cleanup = none ∧
      ((Resolve useYtDlp env input).tempCreated = true →
        (Resolve useYtDlp env input).tempRemoved = true) := by
  unfold Resolve
  by_cases h1 : isURL input = true
  · by_cases h2 : (useYtDlp && isYouTubeURL input) = true
    · simpa [h1, h2] using downloadWithYtDlp_err_shape env.yt
    · simpa [h1, h2] using downloadDirect_err_shape env.direct
  · intro herr
    simp only [h1] at herr ⊢
    simp only [Bool.false_eq_true, if_false] at herr ⊢
    refine ⟨?_, ?_, by simp⟩
    · exact ((resolveLocalFile_err_shape env.fs input).1 (by simpa using herr)).1
    · exact ((resolveLocalFile_err_shape env.fs input).1 (by simpa using herr)).2

/-- Witness for C9: a direct download that exceeds the redirect cap
returns an empty path, a nil cleanup, and no dangling temp artifact. -/
theorem c9_no_resource_on_error_witness :
    (Resolve false
        ⟨fun _ => .notExist,
         ⟨10, ⟨200, "audio/mpeg", "http://h/a.mp3", "/a.mp3"⟩, "/tmp/t", true, true⟩,
         ⟨true, "", true, true, "", true, []⟩⟩
        "http://h/a.mp3").ret.path = "" ∧
    (Resolve false
        ⟨fun _ => .notExist,
         ⟨10, ⟨200, "audio/mpeg", "http://h/a.mp3", "/a.mp3"⟩, "/tmp/t", true, true⟩,
         ⟨true, "", true, true, "", true, []⟩⟩
        "http://h/a.mp3").ret.cleanup = none := by
  constructor
  · exact (c9_no_resource_on_error false
      ⟨fun _ => .notExist,
       ⟨10, ⟨200, "audio/mpeg", "http://h/a.mp3", "/a.mp3"⟩, "/tmp/t", true, true⟩,
       ⟨true, "", true, true, "", true, []⟩⟩
      "http://h/a.mp3" (by decide)).1
  · exact (c9_no_resource_on_error false
      ⟨fun _ => .notExist,
       ⟨10, ⟨200, "audio/mpeg", "http://h/a.mp3", "/a.mp3"⟩, "/tmp/t", true, true⟩,
       ⟨true, "", true, true, "", true, []⟩⟩
      "http://h/a.mp3" (by decide)).2.1

/-! ### Output path computation (cmd/root.go: getOutputPath, sanitizeFilename) -/

/-- The `invalid` character list of `sanitizeFilename`, in source
order. -/
def invalidFilenameChars : List Char :=
  ['/', '\\', ':', '*', '?', '"', '<', '>', '|']

/-- Models Go `strings.ReplaceAll(s, string(c), "_")` for a single
character pattern. -/
def goReplaceAllChar (s : String) (c : Char) : String :=
  ⟨s.data.map (fun x => if x = c then '_' else x)⟩

/-- Embedding of `sanitizeFilename`: successive `ReplaceAll` passes, one
per invalid character, in source order. -/
def sanitizeFilename (name : String) : String :=
  invalidFilenameChars.foldl goReplaceAllChar name

/-- The spec's one-pass description of sanitization: every character in
the invalid set becomes an underscore. -/
def sanitizeSpec (name : String) : String :=
  ⟨name.data.map (fun c => if c ∈ invalidFilenameChars then '_' else c)⟩

/-- A left fold of single-character `ReplaceAll` passes equals one
character-wise replacement pass over the whole character list. -/
theorem foldl_replace_eq (cs : List Char) :
    ∀ s : String, cs.foldl goReplaceAllChar s =
      ⟨s.data.map (fun c => if c ∈ cs then '_' else c)⟩ := by
  induction cs with
  | nil =>
    intro s
    simp [List.foldl_nil]
  | cons c cs ih =>
    intro s
    rw [List.foldl_cons, ih]
    simp only [goReplaceAllChar, List.map_map]
    refine congrArg String.mk (List.map_congr_left ?_)
    intro x _
    by_cases hxc : x = c
    · subst hxc
      simp [Function.comp]
    · simp [Function.comp, hxc]

/-- The nine sequential `ReplaceAll` passes of the source equal the
spec's single character-wise replacement pass. -/
theorem sanitizeFilename_eq_spec (name : String) :
    sanitizeFilename name = sanitizeSpec name :=
  foldl_replace_eq invalidFilenameChars name

/-- Embedding of `getOutputPath`: strip the extension from the base name
of the input; for URL inputs sanitize it and fall back to `"output"`
when empty; place the file in the configured output directory, else
beside the input for local inputs and in the current directory for URL
inputs. -/
def getOutputPath (input outputDir format : String) : String :=
  let base := pathBase input
  let ext := pathExt base
  let name0 := trimSuffix base ext
  let name :=
    if isURL input then
      let s := sanitizeFilename name0
      if s = "" then "output" else s
    else name0
  let dir :=
    if outputDir = "" then (if isURL input then "." else pathDir input)
    else outputDir
  goJoin dir (name ++ "." ++ format)

/-- C7: for URL-derived inputs the output base name is the input's base
name (extension stripped) with each character in the invalid set
replaced by an underscore in one pass, falling back to `"output"` when
the sanitized result is empty; the output file is `<base>.<format>`,
placed under the configured output directory when set, else in the
current directory for URL inputs and beside the input file for local
inputs. -/
theorem c7_output_path (input odir fmt : String) :
    (isURL input = true →
      getOutputPath input odir fmt =
        goJoin (if odir = "" then "." else odir)
          ((let s := sanitizeSpec (trimSuffix (pathBase input) (pathExt (pathBase input)));
            if s = "" then "output" else s) ++ "." ++ fmt)) ∧
    (isURL input = false →
      getOutputPath input odir fmt =
        goJoin (if odir = "" then pathDir input else odir)
          (trimSuffix (pathBase input) (pathExt (pathBase input)) ++ "." ++ fmt)) := by
  constructor
  · intro h
    simp only [getOutputPath, h, if_true, sanitizeFilename_eq_spec]
  · intro h
    simp only [getOutputPath, h, Bool.false_eq_true, if_false]

/-- Witness for C7: a URL whose base name holds `:` and `*` characters
is sanitized with underscores and written to the current directory, and
a local input is written beside its source file. -/
theorem c7_output_path_witness :
    getOutputPath "https://example.com/a:b*c.mp3" "" "lrc" = "a_b_c.lrc" ∧
    getOutputPath "/music/song.mp3" "" "srt" = "/music/song.srt" := by
  constructor
  · rw [(c7_output_path "https://example.com/a:b*c.mp3" "" "lrc").1 (by decide)]
    decide
  · rw [(c7_output_path "/music/song.mp3" "" "srt").2 (by decide)]
    decide

/-! ### Transcript data and formatters (internal/whisper, internal/output) -/

/-- A transcribed segment (`whisper.Segment`).  Go stores the times as
`float64`; they are modelled as exact rationals.  For the values
appearing in the claims (0.5, 3.2, 5.8) the double-precision
computation `int(seconds * 1000)` is exact, so the rational model
computes the identical millisecond counts. -/
structure Segment where
  start : ℚ
  endTime : ℚ
  text : String
deriving DecidableEq

/-- The complete transcription (`whisper.TranscriptionResult`). -/
structure TranscriptionResult where
  text : String
  language : String
  segments : List Segment
deriving DecidableEq

/-- Models the Go conversion `int(q)` (truncation toward zero) on an
exact rational. -/
def goTrunc (q : ℚ) : ℤ := Int.tdiv q.num (q.den : ℤ)

/-- Models Go `strings.TrimSpace` for ASCII text: drop whitespace from
both ends. -/
def trimSpace (s : String) : String :=
  ⟨((s.data.dropWhile Char.isWhitespace).reverse.dropWhile Char.isWhitespace).reverse⟩

/-- Embedding of `formatLRCTimestamp`: `mm:ss.xx` from
`int(seconds * 1000)` (times here are non-negative). -/
def formatLRCTimestamp (seconds : ℚ) : String :=
  let totalMs := (goTrunc (seconds * 1000)).toNat
  let mins := totalMs / 60000
  let secs := totalMs % 60000 / 1000
  let centisecs := totalMs % 1000 / 10
  padNum 2 mins ++ ":" ++ padNum 2 secs ++ "." ++ padNum 2 centisecs

/-- Embedding of `LRCFormatter.Format`: the `[re:whisper-lrc]` header,
an optional `[la:...]` language line, a blank line, then one
timestamped line per segment with trimmed text. -/
def lrcFormat (result : TranscriptionResult) : String :=
  "[re:whisper-lrc]\n" ++
  (if result.language ≠ "" then "[la:" ++ result.language ++ "]\n" else "") ++
  "\n" ++
  String.join (result.segments.map (fun seg =>
    "[" ++ formatLRCTimestamp seg.start ++ "]" ++ trimSpace seg.text ++ "\n"))

/-- Embedding of `formatSRTTimestamp`: `hh:mm:ss,mmm` from
`int(seconds * 1000)`. -/
def formatSRTTimestamp (seconds : ℚ) : String :=
  let totalMs := (goTrunc (seconds * 1000)).toNat
  let hours := totalMs / 3600000
  let mins := totalMs % 3600000 / 60000
  let secs := totalMs % 60000 / 1000
  let ms := totalMs % 1000
  padNum 2 hours ++ ":" ++ padNum 2 mins ++ ":" ++ padNum 2 secs ++ "," ++ padNum 3 ms

/-- Embedding of `SRTFormatter.Format`: for each segment a 1-based
sequence number, a `start --> stop` timestamp line, the trimmed text,
and a blank separator line. -/
def srtFormat (result : TranscriptionResult) : String :=
  String.join (result.segments.enum.map (fun p =>
    toString (p.1 + 1) ++ "\n" ++
    formatSRTTimestamp p.2.start ++ " --> " ++ formatSRTTimestamp p.2.endTime ++ "\n" ++
    trimSpace p.2.text ++ "\n" ++ "\n"))

/-- The illustrative transcript of the claim: two segments at
0.5–3.2 s and 3.2–5.8 s. -/
def exampleTranscript : TranscriptionResult :=
  ⟨"", "",
   [⟨1 / 2, 16 / 5, "Never gonna give you up"⟩,
    ⟨16 / 5, 29 / 5, "Never gonna let you down"⟩]⟩

/-- `goTrunc` on an integral rational is that integer. -/
theorem goTrunc_intCast (n : ℤ) (q : ℚ) (h : q = (n : ℚ)) : goTrunc q = n := by
  subst h
  simp [goTrunc]

/-- The millisecond counts of the example segment boundaries. -/
theorem exampleMs :
    goTrunc ((1 / 2 : ℚ) * 1000) = 500 ∧ goTrunc ((16 / 5 : ℚ) * 1000) = 3200 ∧
      goTrunc ((29 / 5 : ℚ) * 1000) = 5800 :=
  ⟨goTrunc_intCast 500 _ (by norm_num), goTrunc_intCast 3200 _ (by norm_num),
   goTrunc_intCast 5800 _ (by norm_num)⟩

/-- C8: formatting the example transcript as LRC yields the lines
`[00:00.50]Never gonna give you up` and
`[00:03.20]Never gonna let you down` (after the fixed header), and as
SRT yields numbered blocks with timestamps
`00:00:00,500 --> 00:00:03,200` and `00:00:03,200 --> 00:00:05,800`. -/
theorem c8_formatter_output :
    lrcFormat exampleTranscript =
      "[re:whisper-lrc]\n\n[00:00.50]Never gonna give you up\n[00:03.20]Never gonna let you down\n" ∧
    (strContains (lrcFormat exampleTranscript) "\n[00:00.50]Never gonna give you up\n" = true ∧
      strContains (lrcFormat exampleTranscript) "\n[00:03.20]Never gonna let you down\n" = true) ∧
    srtFormat exampleTranscript =
      "1\n00:00:00,500 --> 00:00:03,200\nNever gonna give you up\n\n2\n00:00:03,200 --> 00:00:05,800\nNever gonna let you down\n\n" := by
  have hl1 : formatLRCTimestamp (1 / 2) = "00:00.50" := by
    simp only [formatLRCTimestamp, exampleMs.1]
    decide
  have hl2 : formatLRCTimestamp (16 / 5) = "00:03.20" := by
    simp only [formatLRCTimestamp, exampleMs.2.1]
    decide
  have hs1 : formatSRTTimestamp (1 / 2) = "00:00:00,500" := by
    simp only [formatSRTTimestamp, exampleMs.1]
    decide
  have hs2 : formatSRTTimestamp (16 / 5) = "00:00:03,200" := by
    simp only [formatSRTTimestamp, exampleMs.2.1]
    decide
  have hs3 : formatSRTTimestamp (29 / 5) = "00:00:05,800" := by
    simp only [formatSRTTimestamp, exampleMs.2.2]
    decide
  have hlrc : lrcFormat exampleTranscript =
      "[re:whisper-lrc]\n\n[00:00.50]Never gonna give you up\n[00:03.20]Never gonna let you down\n" := by
    simp only [lrcFormat, exampleTranscript, List.map, hl1, hl2]
    decide
  have hsrt : srtFormat exampleTranscript =
      "1\n00:00:00,500 --> 00:00:03,200\nNever gonna give you up\n\n2\n00:00:03,200 --> 00:00:05,800\nNever gonna let you down\n\n" := by
    simp only [srtFormat, exampleTranscript, List.enum, List.enumFrom, List.map, hs1, hs2, hs3]
    decide
  exact ⟨hlrc, ⟨by rw [hlrc]; decide, by rw [hlrc]; decide⟩, hsrt⟩

/-! ### Progress tracker (internal/progress/tracker.go) -/

/-- The `Tracker` state.  The `done` channel is modelled by whether it
has been closed and how many times `close` was called (a second `close`
would panic in Go); the background render loop only prints and is not
modelled. -/
structure Tracker where
  total : Nat
  current : Nat
  fileName : String
  status : String
  errors : List String
  completed : List String
  doneClosed : Bool
  closeCount : Nat
  started : Bool
deriving DecidableEq, Repr

/-- Embedding of `progress.NewTracker`. -/
def NewTracker (total : Nat) : Tracker :=
  ⟨total, 0, "", "", [], [], false, 0, false⟩

/-- Embedding of `Tracker.Start`: sets the started flag (and launches
the render loop, which only prints). -/
def Tracker.Start (t : Tracker) : Tracker := { t with started := true }

/-- Embedding of `Tracker.Stop`: when started, close the done channel
and clear the flag; otherwise do nothing. -/
def Tracker.Stop (t : Tracker) : Tracker :=
  if t.started then
    { t with doneClosed := true, closeCount := t.closeCount + 1, started := false }
  else t

/-- C10: stopping the tracker is idempotent — after a Start, the first
Stop closes the done channel, clears the started flag and closes
exactly once, and a second Stop changes nothing (in particular it never
closes the channel twice); on any tracker state, Stop ∘ Stop = Stop. -/
theorem c10_stop_idempotent (n : Nat) (t : Tracker) :
    ((NewTracker n).Start.Stop.doneClosed = true ∧
      (NewTracker n).Start.Stop.started = false ∧
      (NewTracker n).Start.Stop.closeCount = 1 ∧
      (NewTracker n).Start.Stop.Stop = (NewTracker n).Start.Stop) ∧
    t.Stop.Stop = t.Stop := by
  constructor
  · refine ⟨rfl, rfl, rfl, rfl⟩
  · unfold Tracker.Stop
    by_cases h : t.started = true <;> simp [h]

/-- Witness for C10 at a concrete tracker: one Start then two Stops
close the done channel exactly once. -/
theorem c10_stop_idempotent_witness :
    (NewTracker 3).Start.Stop.closeCount = 1 ∧
    (NewTracker 3).Start.Stop.Stop = (NewTracker 3).Start.Stop :=
  ⟨(c10_stop_idempotent 3 (NewTracker 3)).1.2.2.1,
   (c10_stop_idempotent 3 (NewTracker 3)).1.2.2.2⟩

/-! ### Batch orchestration (cmd/root.go: runExtract) -/

/-- The configuration `runExtract` reads after flag validation. -/
structure Config where
  outputFormat : String
  outputDir : String
  useYtDlp : Bool

/-- The environment one loop iteration of `runExtract` runs in: the
input argument, the resolution environment, and the outcomes of the
transcription call, `os.MkdirAll` and `os.WriteFile`. -/
structure ItemEnv where
  input : String
  renv : ResolveEnv
  transcribeOk : Bool
  transcript : TranscriptionResult
  mkdirOk : Bool
  writeOk : Bool

/-- The per-item failure causes of the pipeline. -/
inductive ItemErr where
  | resolveErr (e : ResolveErr)
  | transcribeErr
  | mkdirErr
  | writeErr
deriving DecidableEq, Repr

/-- The per-item outcome of one loop iteration, as the spec's
BatchItemOutcome. -/
inductive Outcome where
  | success (input outPath : String)
  | failure (input : String) (e : ItemErr)
deriving DecidableEq, Repr

/-- Whether an outcome was recorded in the `errors` slice. -/
def Outcome.isFailure : Outcome → Bool
  | .success _ _ => false
  | .failure _ _ => true

/-- Models the `if cleanup != nil { cleanup() }` call sites: the list of
cleanup invocations the site performs. -/
def runCleanup : Option Cleanup → List Cleanup
  | some c => [c]
  | none => []

/-- Embedding of one iteration of the `runExtract` loop, mirroring its
statement order: resolve (recording a failure and continuing on error),
transcribe (invoking cleanup on failure), format, compute the output
path, create the output directory and write the file (each invoking
cleanup on failure), and invoke cleanup on success.  The second
component lists every cleanup invocation the iteration makes on the
resolved audio. -/
def processItem (cfg : Config) (env : ItemEnv) : Outcome × List Cleanup :=
  let r := Resolve cfg.useYtDlp env.renv env.input
  match r.ret.err with
  | some e => (.failure env.input (.resolveErr e), [])
  | none =>
    if env.transcribeOk then
      let outPath := getOutputPath env.input cfg.outputDir cfg.outputFormat
      if env.mkdirOk then
        if env.writeOk then (.success env.input outPath, runCleanup r.ret.cleanup)
        else (.failure env.input .writeErr, runCleanup r.ret.cleanup)
      else (.failure env.input .mkdirErr, runCleanup r.ret.cleanup)
    else (.failure env.input .transcribeErr, runCleanup r.ret.cleanup)

/-- The `for i, arg := range args` loop of `runExtract`: every input is
processed in declared order, each producing one outcome. -/
def runBatch (cfg : Config) : List ItemEnv → List Outcome
  | [] => []
  | e :: rest => (processItem cfg e).1 :: runBatch cfg rest

/-- The `errors` slice of `runExtract`: one entry per failed item, in
order. -/
def batchErrors (outs : List Outcome) : List Outcome := outs.filter (·.isFailure)

/-- Embedding of the whole `runExtract` batch: the outcome list and
whether the function returns a non-nil error (which `Execute` turns
into a non-zero exit status), which it does exactly when the `errors`
slice is non-empty. -/
def runExtract (cfg : Config) (envs : List ItemEnv) : List Outcome × Bool :=
  let outs := runBatch cfg envs
  (outs, decide (batchErrors outs ≠ []))

/-- The batch loop is the per-item pipeline mapped over the inputs. -/
theorem runBatch_eq_map (cfg : Config) (envs : List ItemEnv) :
    runBatch cfg envs = envs.map (fun e => (processItem cfg e).1) := by
  induction envs with
  | nil => rfl
  | cons e rest ih => simp [runBatch, ih]

/-- C1: whenever resolution produced a ResolvedAudio, the per-item
pipeline invokes a non-null cleanup exactly once on every code path —
transcription failure, directory-creation failure, write failure and
full success — and invokes nothing when the cleanup is null; and every
input resolved as a caller-owned local file (a non-URL input) gets a
null cleanup, so the pipeline never deletes a user-supplied file. -/
theorem c1_cleanup_exactly_once (cfg : Config) (env : ItemEnv) :
    ((Resolve cfg.useYtDlp env.renv env.input).ret.err = none →
      ∀ c, (Resolve cfg.useYtDlp env.renv env.input).ret.cleanup = some c →
        (processItem cfg env).2 = [c]) ∧
    ((Resolve cfg.useYtDlp env.renv env.input).ret.err = none →
      (Resolve cfg.useYtDlp env.renv env.input).ret.cleanup = none →
      (processItem cfg env).2 = []) ∧
    ((Resolve cfg.useYtDlp env.renv env.input).ret.err ≠ none →
      (processItem cfg env).2 = []) ∧
    (isURL env.input = false →
      (Resolve cfg.useYtDlp env.renv env.input).ret.cleanup = none) := by
  refine ⟨fun hok c hc => ?_, fun hok hc => ?_, fun herr => ?_, fun hurl => ?_⟩
  · rcases ht : env.transcribeOk <;> rcases hm : env.mkdirOk <;> rcases hw : env.writeOk <;>
      simp [processItem, hok, hc, runCleanup, ht, hm, hw]
  · rcases ht : env.transcribeOk <;> rcases hm : env.mkdirOk <;> rcases hw : env.writeOk <;>
      simp [processItem, hok, hc, runCleanup, ht, hm, hw]
  · rcases h : (Resolve cfg.useYtDlp env.renv env.input).ret.err with _ | e
    · exact absurd h herr
    · simp [processItem, h]
  · unfold Resolve
    rw [if_neg (by simp [hurl])]
    exact (resolveLocalFile_err_shape env.renv.fs env.input).2

/-- Witness for C1: a successful direct-download pipeline run invokes
the temp-file cleanup exactly once, and a local-file input resolves
with a null cleanup. -/
theorem c1_cleanup_exactly_once_witness :
    (processItem ⟨"lrc", "", false⟩
        ⟨"http://h/a.mp3",
         ⟨fun _ => .notExist,
          ⟨0, ⟨200, "audio/mpeg", "http://h/a.mp3", "/a.mp3"⟩, "/tmp/t", true, true⟩,
          ⟨true, "", true, true, "", true, []⟩⟩,
         true, ⟨"", "", []⟩, true, true⟩).2 = [.removeFile "/tmp/t.mp3"] ∧
    (Resolve false
        ⟨fun _ => .file,
         ⟨0, ⟨200, "", "", ""⟩, "", true, true⟩,
         ⟨true, "", true, true, "", true, []⟩⟩
        "song.mp3").ret.cleanup = none := by
  constructor
  · exact (c1_cleanup_exactly_once ⟨"lrc", "", false⟩
      ⟨"http://h/a.mp3",
       ⟨fun _ => .notExist,
        ⟨0, ⟨200, "audio/mpeg", "http://h/a.mp3", "/a.mp3"⟩, "/tmp/t", true, true⟩,
        ⟨true, "", true, true, "", true, []⟩⟩,
       true, ⟨"", "", []⟩, true, true⟩).1 (by decide) (.removeFile "/tmp/t.mp3") (by decide)
  · exact (c1_cleanup_exactly_once ⟨"lrc", "", false⟩
      ⟨"song.mp3",
       ⟨fun _ => .file,
        ⟨0, ⟨200, "", "", ""⟩, "", true, true⟩,
        ⟨true, "", true, true, "", true, []⟩⟩,
       true, ⟨"", "", []⟩, true, true⟩).2.2.2 (by decide)

/-- C2: the batch processes all N inputs in declared order — the
outcome list is exactly the per-item pipeline mapped over the inputs,
so a failed item never aborts the batch — its length equals the input
count, and the process completion status is non-zero exactly when the
failure list is non-empty. -/
theorem c2_batch_semantics (cfg : Config) (envs : List ItemEnv) :
    (runExtract cfg envs).1 = envs.map (fun e => (processItem cfg e).1) ∧
    (runExtract cfg envs).1.length = envs.length ∧
    ((runExtract cfg envs).2 = true ↔ ∃ o ∈ (runExtract cfg envs).1, o.isFailure = true) := by
  refine ⟨runBatch_eq_map cfg envs, ?_, ?_⟩
  · simp [runExtract, runBatch_eq_map cfg envs]
  · simp only [runExtract, batchErrors, decide_eq_true_eq, ne_eq]
    constructor
    · intro h
      rcases List.exists_mem_of_ne_nil _ h with ⟨o, ho⟩
      have := List.of_mem_filter ho
      exact ⟨o, List.mem_of_mem_filter ho, by simpa using this⟩
    · intro ⟨o, ho, hf⟩ hnil
      have : o ∈ (runBatch cfg envs).filter (·.isFailure) := List.mem_filter.mpr ⟨ho, by simpa using hf⟩
      simp [hnil] at this

/-- Witness for C2 at a concrete one-item batch whose input fails to
resolve: one outcome is produced and the completion status is
non-zero. -/
theorem c2_batch_semantics_witness :
    (runExtract ⟨"lrc", "", false⟩
        [⟨"song.xyz",
          ⟨fun _ => .notExist, ⟨0, ⟨200, "", "", ""⟩, "", true, true⟩,
           ⟨true, "", true, true, "", true, []⟩⟩,
          true, ⟨"", "", []⟩, true, true⟩]).1.length = 1 ∧
    (runExtract ⟨"lrc", "", false⟩
        [⟨"song.xyz",
          ⟨fun _ => .notExist, ⟨0, ⟨200, "", "", ""⟩, "", true, true⟩,
           ⟨true, "", true, true, "", true, []⟩⟩,
          true, ⟨"", "", []⟩, true, true⟩]).2 = true := by
  constructor
  · rw [(c2_batch_semantics ⟨"lrc", "", false⟩
      [⟨"song.xyz",
        ⟨fun _ => .notExist, ⟨0, ⟨200, "", "", ""⟩, "", true, true⟩,
         ⟨true, "", true, true, "", true, []⟩⟩,
        true, ⟨"", "", []⟩, true, true⟩]).2.1]
    rfl
  · exact (c2_batch_semantics ⟨"lrc", "", false⟩
      [⟨"song.xyz",
        ⟨fun _ => .notExist, ⟨0, ⟨200, "", "", ""⟩, "", true, true⟩,
         ⟨true, "", true, true, "", true, []⟩⟩,
        true, ⟨"", "", []⟩, true, true⟩]).2.2.mpr
      ⟨.failure "song.xyz" (.resolveErr (.notFound "song.xyz")), by decide, rfl⟩

end WhisperLrc
